import Mathlib

/-!
Verification of the sensor-reading normalization layer of hwbench
(`src/hwbench/environment/vendors/vendor.py`).

Python strings/bytes are modelled as `List Char` (for the byte-level
parsing code) or `String` (for document field values); Python dicts are
modelled as insertion-ordered association lists with Python's update
semantics (updating an existing key keeps its position, a new key is
appended).  Numeric sensor values are modelled as `ℚ`.  Fallible Python
code (statements that can raise) is modelled with `Option`/sum types.
-/

/-! ## Python string primitives -/

/-- The six ASCII whitespace bytes that Python's `bytes.strip()` and
`str.split()` (no arguments) treat as whitespace. -/
def pyWS (c : Char) : Bool :=
  c = ' ' || c = '\t' || c = '\n' || c = '\r' || c = '\x0b' || c = '\x0c'

/-- Python `strip()`: drop leading and trailing whitespace. -/
def pyStrip (l : List Char) : List Char :=
  ((l.dropWhile pyWS).reverse.dropWhile pyWS).reverse

/-- Helper for `pySplit`: walks the characters, accumulating the
current token in reverse. -/
def pySplitAux : List Char → List Char → List (List Char)
  | [], acc => if acc = [] then [] else [acc.reverse]
  | c :: rest, acc =>
    if pyWS c then
      if acc = [] then pySplitAux rest []
      else acc.reverse :: pySplitAux rest []
    else pySplitAux rest (c :: acc)

/-- Python `split()` with no argument: split on runs of whitespace,
producing no empty tokens. -/
def pySplit (l : List Char) : List (List Char) := pySplitAux l []

/-- `s.split()[0]` as a fallible operation: `none` models the
`IndexError` raised when the token list is empty. -/
def firstToken (s : String) : Option String :=
  match pySplit s.data with
  | [] => none
  | t :: _ => some (String.mk t)

/-- Python `row.split(b": ", 1)` guarded by `b": " in row`: `none` when
the two-byte separator does not occur in the row, otherwise the pieces
before and after its first occurrence. -/
def splitSep : List Char → Option (List Char × List Char)
  | [] => none
  | c :: rest =>
    if c = ':' ∧ rest.head? = some ' ' then some ([], rest.tail)
    else (splitSep rest).map (fun kv => (c :: kv.1, kv.2))

/-- Python `stdout.split(b"\n")`. -/
def splitLines : List Char → List (List Char)
  | [] => [[]]
  | c :: rest =>
    if c = '\n' then [] :: splitLines rest
    else
      match splitLines rest with
      | [] => [[c]]
      | r :: rs => (c :: r) :: rs

/-! ## Python dict model (insertion ordered) -/

/-- A Python dict with string keys: an association list in insertion
order. -/
abbrev Dict (β : Type) := List (String × β)

/-- Python `d[k] = v`: update in place if `k` is present (keeping its
position), otherwise append. -/
def dictInsert {β : Type} : Dict β → String → β → Dict β
  | [], k, v => [(k, v)]
  | (k', v') :: rest, k, v =>
    if k' = k then (k', v) :: rest else (k', v') :: dictInsert rest k v

/-- Python `d.get(k)` / `d[k]` lookup. -/
def dictLookup {β : Type} : Dict β → String → Option β
  | [], _ => none
  | (k', v') :: rest, k => if k' = k then some v' else dictLookup rest k

/-- The key list of a dict, in insertion order (Python `list(d)`). -/
def dictKeys {β : Type} (d : Dict β) : List String := d.map Prod.fst

/-! ## Metric model (`MonitorMetric`, `Temperature`, `Power`) -/

/-- `ThermalContext` enumeration from the source. -/
inductive ThermalContext
  | INTAKE | CPU | MEMORY | SYSTEMBOARD | POWERSUPPLY
deriving DecidableEq

/-- `str(ThermalContext.X)`: the enum value string. -/
def ThermalContext.toStr : ThermalContext → String
  | .INTAKE => "Intake"
  | .CPU => "CPU"
  | .MEMORY => "Memory"
  | .SYSTEMBOARD => "SystemBoard"
  | .POWERSUPPLY => "PowerSupply"

/-- `FanContext` enumeration from the source. -/
inductive FanContext
  | FAN
deriving DecidableEq

/-- `str(FanContext.FAN)`. -/
def FanContext.toStr : FanContext → String
  | .FAN => "Fan"

/-- `PowerContext` enumeration from the source. -/
inductive PowerContext
  | POWER
deriving DecidableEq

/-- `str(PowerContext.POWER)`. -/
def PowerContext.toStr : PowerContext → String
  | .POWER => "Power"

/-- A metric name as stored in Python: usually a plain string, but the
code also tolerates enum-like values because `__eq__` applies `str()`
to both sides before comparing. -/
inductive PyStrLike
  | str (s : String)
  | thermal (c : ThermalContext)
  | fan (c : FanContext)
  | power (c : PowerContext)
deriving DecidableEq

/-- Python `str(x)` on a metric name. -/
def PyStrLike.toStr : PyStrLike → String
  | .str s => s
  | .thermal c => c.toStr
  | .fan c => c.toStr
  | .power c => c.toStr

/-- `MonitorMetric`: a named, unit-tagged scalar reading. -/
structure MonitorMetric where
  name : PyStrLike
  value : ℚ
  unit : String
deriving DecidableEq

/-- `MonitorMetric.__eq__`: compares `str(name)`, `value` and `unit`. -/
def MonitorMetric.eq (m compared_metric : MonitorMetric) : Bool :=
  decide (m.name.toStr = compared_metric.name.toStr)
    && decide (m.value = compared_metric.value)
    && decide (m.unit = compared_metric.unit)

/-- The `Temperature` specialization: unit fixed to `"Celsius"`. -/
def Temperature (name : PyStrLike) (value : ℚ) : MonitorMetric :=
  ⟨name, value, "Celsius"⟩

/-- The `Power` specialization: unit fixed to `"Watts"`. -/
def Power (name : PyStrLike) (value : ℚ) : MonitorMetric :=
  ⟨name, value, "Watts"⟩

/-! ## Raw Redfish documents -/

/-- One entry of the thermal document's `"Fans"` list, with the three
fields `read_fans` reads unconditionally. -/
structure FanEntry where
  Name : String
  Reading : ℚ
  ReadingUnits : String
deriving DecidableEq

/-- The thermal document as consumed by `read_fans`: `fans = none`
models a document without a `"Fans"` key (`doc.get("Fans")` is `None`),
`fans = some l` a document whose `"Fans"` key holds the list `l`. -/
structure ThermalDoc where
  fans : Option (List FanEntry)
deriving DecidableEq

/-- One entry of the power document's `"PowerControl"` list. -/
structure PowerControlEntry where
  PowerConsumedWatts : ℚ
deriving DecidableEq

/-- One entry of the power document's `"PowerSupplies"` list. -/
structure PowerSupplyEntry where
  Name : String
  PowerInputWatts : ℚ
deriving DecidableEq

/-- The power document as consumed by `read_power_consumption` and
`read_power_supplies`; `none` fields model absent keys. -/
structure PowerDoc where
  powerControl : Option (List PowerControlEntry)
  powerSupplies : Option (List PowerSupplyEntry)
deriving DecidableEq

/-- A normalized reading: category string → (sensor label → metric). -/
abbrev NormalizedReading := Dict (Dict MonitorMetric)

/-- `BMC.get_thermal`'s generic implementation returns `{}`: a document
with no `"Fans"` key. -/
def get_thermal : ThermalDoc := ⟨none⟩

/-- `BMC.get_power`'s generic implementation returns `{}`. -/
def get_power : PowerDoc := ⟨none, none⟩

/-! ## Generic aggregation reads

Each `read_*` is modelled as a function of the freshly fetched document
(the method re-fetches via `get_thermal()` / `get_power()` on every
call).  The result is `none` when the Python code raises: iterating
`doc.get(key)` when the key is absent raises `TypeError` (iteration
over `None`), and `split()[0]` on a whitespace-only name raises
`IndexError`. -/

/-- `BMC.read_fans`, as a function of the thermal document. -/
def read_fans (doc : ThermalDoc) : Option NormalizedReading :=
  match doc.fans with
  | none => none
  | some l =>
    some [(FanContext.FAN.toStr,
      l.foldl (fun acc f =>
        dictInsert acc f.Name ⟨.str f.Name, f.Reading, f.ReadingUnits⟩) [])]

/-- `BMC.read_power_consumption`, as a function of the power document. -/
def read_power_consumption (doc : PowerDoc) : Option NormalizedReading :=
  match doc.powerControl with
  | none => none
  | some l =>
    some [(PowerContext.POWER.toStr,
      l.foldl (fun acc power =>
        dictInsert acc "Chassis" (Power (.str "Chassis") power.PowerConsumedWatts)) [])]

/-- The loop body of `read_power_supplies`: `none` once an entry's
`Name.split()[0]` raises `IndexError`. -/
def psuFold : List PowerSupplyEntry → Dict MonitorMetric → Option (Dict MonitorMetric)
  | [], acc => some acc
  | psu :: rest, acc =>
    match firstToken psu.Name with
    | none => none
    | some t => psuFold rest (dictInsert acc psu.Name (Power (.str t) psu.PowerInputWatts))

/-- `BMC.read_power_supplies`, as a function of the power document. -/
def read_power_supplies (doc : PowerDoc) : Option NormalizedReading :=
  match doc.powerSupplies with
  | none => none
  | some l => (psuFold l []).map (fun inner => [(PowerContext.POWER.toStr, inner)])

/-! ## `get_redfish_url` -/

/-- The possible outcomes of `self.redfish_obj.get(url, None).dict`:
a parsed document, or one of the two exception types the code tries to
catch. -/
inductive RedfishResp
  | ok (d : Dict String)
  | retriesExhausted
  | jsonDecodeError
deriving DecidableEq

/-- What a call to `get_redfish_url` does: return a document, return
`None`, or propagate an exception. -/
inductive FetchResult
  | doc (d : Dict String)
  | retNone
  | raises (e : String)
deriving DecidableEq

/-- `BMC.get_redfish_url`.  The success path checks
`if redfish and "error" in redfish` and returns `{}` for error payloads
(logging them).  The two `except` clauses are written
`except redfish.rest.v1....:`, but the assignment
`redfish = self.redfish_obj.get(url, None).dict` makes `redfish` a
local variable of the function; when `get` raises, that local is still
unbound, so evaluating the `except` clause expression itself raises
`UnboundLocalError` instead of matching the exception — the intended
`return None` branches are unreachable. -/
def get_redfish_url : RedfishResp → FetchResult
  | .ok d => if d ≠ [] ∧ (dictLookup d "error").isSome then .doc [] else .doc d
  | .retriesExhausted => .raises "UnboundLocalError"
  | .jsonDecodeError => .raises "UnboundLocalError"

/-! ## Local discovery (`parse_cmd`, `get_ip`) -/

/-- One iteration of `parse_cmd`'s loop over the rows of stdout. -/
def processRow (bmc : Dict (List Char)) (row : List Char) : Dict (List Char) :=
  match splitSep row with
  | none => bmc
  | some (key, value) =>
    if pyStrip key ≠ [] then dictInsert bmc (String.mk (pyStrip key)) (pyStrip value)
    else bmc

/-- `BMC.parse_cmd`: fold the rows of `stdout.split(b"\n")` into the
accumulated `self.bmc` mapping.  (The `decode("utf-8")` calls are
elided: bytes are modelled as `Char` lists directly, and dict keys are
wrapped in `String` only for uniformity with the other dict models.) -/
def parse_cmd (stdout : List Char) (bmc : Dict (List Char)) : Dict (List Char) :=
  (splitLines stdout).foldl processRow bmc

/-- The outcome of an operation that may call `h.fatal`.

Modelled from the spec: `h.fatal` lives in `hwbench/utils/helpers.py`,
which is not under `src/`; per the spec, fatal conditions "terminate
the run with a descriptive message", so `h.fatal` is modelled as an
aborting outcome carrying the message, and never returns. -/
inductive FatalOr (α : Type)
  | fatal (msg : String)
  | ok (a : α)
deriving DecidableEq

/-- `BMC.get_ip`: `self.bmc["IP Address"]`, with `KeyError` caught and
turned into `h.fatal("Cannot detect BMC ip")`. -/
def get_ip (bmc : Dict (List Char)) : FatalOr (List Char) :=
  match dictLookup bmc "IP Address" with
  | some ip => .ok ip
  | none => .fatal "Cannot detect BMC ip"

/-! ## `Vendor.prepare` -/

/-- The state of a `BMC` object relevant to `Vendor.prepare`:
`discoveryRuns` counts executions of the local `ipmitool` discovery
(`self.bmc.run()`, performed at construction time by `prepare`), and
`sessions` counts the remote sessions created so far
(`connect_redfish` builds a fresh `redfish_client` and calls `login()`
each time it runs; the current session handle is the latest one). -/
structure BMCState where
  discoveryRuns : ℕ
  sessions : ℕ
deriving DecidableEq

/-- The state of a `Vendor` object: `none` while `self.bmc` is unset. -/
structure VendorState where
  bmc : Option BMCState
deriving DecidableEq

/-- `BMC.connect_redfish` (happy path): unconditionally create a fresh
remote session and log in — there is no guard reusing an existing
`self.redfish_obj`. -/
def connect_redfish (b : BMCState) : BMCState :=
  { b with sessions := b.sessions + 1 }

/-- `Vendor.prepare`: construct the controller and run discovery only
when `self.bmc` is unset, then always call `connect_redfish`. -/
def prepare (s : VendorState) : VendorState :=
  match s.bmc with
  | none => ⟨some (connect_redfish ⟨1, 0⟩)⟩
  | some b => ⟨some (connect_redfish b)⟩

/-! ## Dict lemmas -/

theorem dictLookup_insert_self {β : Type} (d : Dict β) (k : String) (v : β) :
    dictLookup (dictInsert d k v) k = some v := by
  induction d with
  | nil => simp [dictInsert, dictLookup]
  | cons kv rest ih =>
    obtain ⟨k', v'⟩ := kv
    by_cases h : k' = k
    · simp [dictInsert, dictLookup, h]
    · simp [dictInsert, dictLookup, h, ih]

theorem dictLookup_insert_ne {β : Type} (d : Dict β) (k' k : String) (v : β)
    (h : k' ≠ k) : dictLookup (dictInsert d k' v) k = dictLookup d k := by
  induction d with
  | nil => simp [dictInsert, dictLookup, h]
  | cons kv rest ih =>
    obtain ⟨a, b⟩ := kv
    by_cases ha : a = k'
    · subst ha
      simp [dictInsert, dictLookup, h]
    · by_cases hk : a = k
      · simp [dictInsert, dictLookup, ha, hk, Ne.symm h]
      · simp [dictInsert, dictLookup, ha, hk, ih]

theorem dictInsert_of_not_mem {β : Type} (d : Dict β) (k : String) (v : β)
    (h : k ∉ dictKeys d) : dictInsert d k v = d ++ [(k, v)] := by
  induction d with
  | nil => simp [dictInsert]
  | cons kv rest ih =>
    obtain ⟨a, b⟩ := kv
    simp only [dictKeys, List.map_cons, List.mem_cons, not_or] at h
    simp [dictInsert, h.1, Ne.symm h.1, ih (by simpa [dictKeys] using h.2)]

theorem mem_dictInsert {β : Type} (d : Dict β) (k : String) (v : β) :
    ∀ kv ∈ dictInsert d k v, kv ∈ d ∨ kv = (k, v) := by
  induction d with
  | nil => simp [dictInsert]
  | cons ab rest ih =>
    obtain ⟨a, b⟩ := ab
    intro kv hkv
    by_cases h : a = k
    · rw [show dictInsert ((a, b) :: rest) k v = (a, v) :: rest from by
        simp [dictInsert, h]] at hkv
      cases List.mem_cons.mp hkv with
      | inl h1 => exact Or.inr (by simp [h1, h])
      | inr h1 => exact Or.inl (List.mem_cons_of_mem _ h1)
    · rw [show dictInsert ((a, b) :: rest) k v = (a, b) :: dictInsert rest k v from by
        simp [dictInsert, h]] at hkv
      cases List.mem_cons.mp hkv with
      | inl h1 => exact Or.inl (by simp [h1])
      | inr h1 =>
        cases ih kv h1 with
        | inl h2 => exact Or.inl (List.mem_cons_of_mem _ h2)
        | inr h2 => exact Or.inr h2

/-! ## Fold-of-inserts lemmas (the shape of every aggregation loop) -/

/-- The generic aggregation loop: insert `key e ↦ val e` for each entry
of the source list, in document order. -/
def foldIns {α β : Type} (key : α → String) (val : α → β)
    (l : List α) (acc : Dict β) : Dict β :=
  l.foldl (fun a e => dictInsert a (key e) (val e)) acc

theorem foldIns_nil {α β : Type} (key : α → String) (val : α → β) (acc : Dict β) :
    foldIns key val [] acc = acc := rfl

theorem foldIns_cons {α β : Type} (key : α → String) (val : α → β)
    (e : α) (l : List α) (acc : Dict β) :
    foldIns key val (e :: l) acc = foldIns key val l (dictInsert acc (key e) (val e)) := rfl

theorem dictLookup_foldIns_not_mem {α β : Type} (key : α → String) (val : α → β)
    (l : List α) (k : String) (h : k ∉ l.map key) :
    ∀ acc, dictLookup (foldIns key val l acc) k = dictLookup acc k := by
  induction l with
  | nil => intro acc; rfl
  | cons e rest ih =>
    intro acc
    simp only [List.map_cons, List.mem_cons, not_or] at h
    rw [foldIns_cons, ih h.2, dictLookup_insert_ne _ _ _ _ (Ne.symm h.1)]

theorem dictLookup_foldIns_mem {α β : Type} (key : α → String) (val : α → β)
    (l : List α) (hnd : (l.map key).Nodup) (e : α) (he : e ∈ l) :
    ∀ acc, dictLookup (foldIns key val l acc) (key e) = some (val e) := by
  induction l with
  | nil => cases he
  | cons a rest ih =>
    intro acc
    simp only [List.map_cons, List.nodup_cons] at hnd
    rcases List.mem_cons.mp he with h1 | h1
    · subst h1
      rw [foldIns_cons,
        dictLookup_foldIns_not_mem key val rest (key e) hnd.1,
        dictLookup_insert_self]
    · exact ih hnd.2 h1 _

theorem dictKeys_foldIns {α β : Type} (key : α → String) (val : α → β)
    (l : List α) (hnd : (l.map key).Nodup) :
    ∀ acc : Dict β, (∀ e ∈ l, key e ∉ dictKeys acc) →
      dictKeys (foldIns key val l acc) = dictKeys acc ++ l.map key := by
  induction l with
  | nil => intro acc _; simp [foldIns_nil]
  | cons a rest ih =>
    intro acc hdisj
    simp only [List.map_cons, List.nodup_cons] at hnd
    rw [foldIns_cons, dictInsert_of_not_mem _ _ _ (hdisj a (List.mem_cons_self a rest))]
    have hkeys : dictKeys (acc ++ [(key a, val a)]) = dictKeys acc ++ [key a] := by
      simp [dictKeys]
    rw [ih hnd.2 _ (by
      intro e he
      rw [hkeys]
      simp only [List.mem_append, List.mem_singleton, not_or]
      refine ⟨hdisj e (List.mem_cons_of_mem _ he), ?_⟩
      intro hcontra
      exact hnd.1 (hcontra ▸ List.mem_map_of_mem key he)), hkeys]
    simp

/-- Folding inserts that all use the same key, starting from the
singleton dict for that key, keeps a singleton whose value is the last
insert's. -/
theorem foldIns_const_key {α β : Type} (val : α → β) (k : String)
    (l : List α) : ∀ m : β,
      l.foldl (fun a x => dictInsert a k (val x)) [(k, m)]
        = [(k, l.foldl (fun _ x => val x) m)] := by
  induction l with
  | nil => intro m; rfl
  | cons e rest ih =>
    intro m
    simp only [List.foldl_cons]
    rw [show dictInsert [(k, m)] k (val e) = [(k, val e)] by simp [dictInsert], ih]

/-! ## Whitespace-stripping lemmas -/

theorem head_dropWhile_false {α : Type} (p : α → Bool) (l : List α) :
    ∀ c ∈ (l.dropWhile p).head?, p c = false := by
  induction l with
  | nil => simp
  | cons a rest ih =>
    by_cases h : p a
    · simpa [List.dropWhile_cons_of_pos h] using ih
    · intro c hc
      rw [List.dropWhile_cons_of_neg h, List.head?_cons] at hc
      rw [show c = a from (Option.mem_some_iff.mp hc).symm]
      exact Bool.eq_false_iff.mpr h

theorem dropWhile_eq_self_of_head {α : Type} (p : α → Bool) (l : List α)
    (h : ∀ c ∈ l.head?, p c = false) : l.dropWhile p = l := by
  cases l with
  | nil => rfl
  | cons a rest =>
    exact List.dropWhile_cons_of_neg (by simp [h a (by simp)])

theorem getLast?_dropWhile {α : Type} (p : α → Bool) (l : List α)
    (h : l.dropWhile p ≠ []) : (l.dropWhile p).getLast? = l.getLast? := by
  induction l with
  | nil => simp at h
  | cons a rest ih =>
    by_cases hp : p a
    · rw [List.dropWhile_cons_of_pos hp] at h ⊢
      have hrest : rest ≠ [] := by
        intro hc
        subst hc
        simp at h
      rw [ih h]
      cases rest with
      | nil => exact absurd rfl hrest
      | cons b rs => simp [List.getLast?_cons_cons]
    · rw [List.dropWhile_cons_of_neg hp]

theorem pyStrip_nil : pyStrip [] = [] := rfl

theorem head_pyStrip_false (l : List Char) :
    ∀ c ∈ (pyStrip l).head?, pyWS c = false := by
  intro c hc
  unfold pyStrip at hc
  set A := l.dropWhile pyWS with hA
  set B := A.reverse.dropWhile pyWS with hB
  have hBne : B ≠ [] := by
    intro hc'
    rw [hc'] at hc
    simp at hc
  rw [List.head?_reverse] at hc
  have h1 : B.getLast? = A.reverse.getLast? := getLast?_dropWhile pyWS A.reverse hBne
  rw [h1, List.getLast?_reverse] at hc
  exact head_dropWhile_false pyWS l c hc

theorem getLast?_pyStrip_false (l : List Char) :
    ∀ c ∈ (pyStrip l).getLast?, pyWS c = false := by
  intro c hc
  unfold pyStrip at hc
  rw [List.getLast?_reverse] at hc
  exact head_dropWhile_false pyWS _ c hc

/-- Python's `strip()` is idempotent: the stripped string has no leading
or trailing whitespace left. -/
theorem pyStrip_idem (l : List Char) : pyStrip (pyStrip l) = pyStrip l := by
  have h1 : (pyStrip l).dropWhile pyWS = pyStrip l :=
    dropWhile_eq_self_of_head pyWS _ (head_pyStrip_false l)
  have h2 : (pyStrip l).reverse.dropWhile pyWS = (pyStrip l).reverse := by
    refine dropWhile_eq_self_of_head pyWS _ ?_
    intro c hc
    rw [List.head?_reverse] at hc
    exact getLast?_pyStrip_false l c hc
  show ((((pyStrip l).dropWhile pyWS).reverse.dropWhile pyWS)).reverse = pyStrip l
  rw [h1, h2, List.reverse_reverse]

/-! ## `split()` lemmas -/

theorem pySplitAux_ne_nil_of_acc (l : List Char) :
    ∀ acc : List Char, acc ≠ [] → pySplitAux l acc ≠ [] := by
  induction l with
  | nil =>
    intro acc h
    simp [pySplitAux, h]
  | cons c rest ih =>
    intro acc h
    by_cases hw : pyWS c
    · simp [pySplitAux, hw, h]
    · rw [show pySplitAux (c :: rest) acc = pySplitAux rest (c :: acc) from by
        simp [pySplitAux, hw]]
      exact ih (c :: acc) (by simp)

theorem pySplit_ne_nil (l : List Char) (h : ∃ c ∈ l, pyWS c = false) :
    pySplit l ≠ [] := by
  unfold pySplit
  induction l with
  | nil => simp at h
  | cons c rest ih =>
    by_cases hw : pyWS c
    · obtain ⟨d, hd, hdf⟩ := h
      have hrest : ∃ d ∈ rest, pyWS d = false := by
        rcases List.mem_cons.mp hd with h1 | h1
        · rw [h1] at hdf
          rw [hw] at hdf
          cases hdf
        · exact ⟨d, h1, hdf⟩
      simpa [pySplitAux, hw] using ih hrest
    · rw [show pySplitAux (c :: rest) [] = pySplitAux rest [c] from by
        simp [pySplitAux, hw]]
      exact pySplitAux_ne_nil_of_acc rest [c] (by simp)

theorem firstToken_isSome (s : String) (h : ∃ c ∈ s.data, pyWS c = false) :
    (firstToken s).isSome := by
  unfold firstToken
  have := pySplit_ne_nil s.data h
  cases heq : pySplit s.data with
  | nil => exact absurd heq this
  | cons t ts => simp

/-! ## Bridging lemmas between the reads and `foldIns` -/

/-- The metric built for one fan entry. -/
def fanVal (f : FanEntry) : MonitorMetric :=
  ⟨.str f.Name, f.Reading, f.ReadingUnits⟩

/-- The metric built for one power-supply entry (on the non-raising
path, where `Name.split()` is non-empty). -/
def psuVal (e : PowerSupplyEntry) : MonitorMetric :=
  Power (.str ((firstToken e.Name).getD "")) e.PowerInputWatts

theorem read_fans_some (l : List FanEntry) :
    read_fans ⟨some l⟩
      = some [(FanContext.FAN.toStr, foldIns FanEntry.Name fanVal l [])] := rfl

theorem psuFold_eq (l : List PowerSupplyEntry)
    (h : ∀ e ∈ l, (firstToken e.Name).isSome) :
    ∀ acc, psuFold l acc = some (foldIns PowerSupplyEntry.Name psuVal l acc) := by
  induction l with
  | nil => intro acc; rfl
  | cons e rest ih =>
    intro acc
    obtain ⟨t, ht⟩ := Option.isSome_iff_exists.mp (h e (List.mem_cons_self e rest))
    rw [show psuFold (e :: rest) acc
        = psuFold rest (dictInsert acc e.Name (Power (.str t) e.PowerInputWatts)) from by
      simp [psuFold, ht]]
    rw [foldIns_cons]
    rw [show psuVal e = Power (.str t) e.PowerInputWatts from by simp [psuVal, ht]]
    exact ih (fun x hx => h x (List.mem_cons_of_mem _ hx)) _

theorem read_power_supplies_some (pc : Option (List PowerControlEntry))
    (l : List PowerSupplyEntry) (h : ∀ e ∈ l, (firstToken e.Name).isSome) :
    read_power_supplies ⟨pc, some l⟩
      = some [(PowerContext.POWER.toStr, foldIns PowerSupplyEntry.Name psuVal l [])] := by
  show (psuFold l []).map _ = _
  rw [psuFold_eq l h []]
  rfl

/-- Keys of the default fan aggregation, for duplicate-free name lists. -/
theorem read_fans_keys (l : List FanEntry) (hnd : (l.map FanEntry.Name).Nodup) :
    dictKeys (foldIns FanEntry.Name fanVal l []) = l.map FanEntry.Name := by
  rw [dictKeys_foldIns FanEntry.Name fanVal l hnd [] (by intro e _; simp [dictKeys])]
  rfl

/-- Keys of the power-supply aggregation, for duplicate-free name lists. -/
theorem read_power_supplies_keys (l : List PowerSupplyEntry)
    (hnd : (l.map PowerSupplyEntry.Name).Nodup) :
    dictKeys (foldIns PowerSupplyEntry.Name psuVal l []) = l.map PowerSupplyEntry.Name := by
  rw [dictKeys_foldIns PowerSupplyEntry.Name psuVal l hnd [] (by intro e _; simp [dictKeys])]
  rfl

/-- The `PowerControl` loop keeps a single `"Chassis"` entry holding the
last control entry's reading. -/
theorem chassisFold_append (L : List PowerControlEntry) (e : PowerControlEntry) :
    (L ++ [e]).foldl (fun acc power =>
        dictInsert acc "Chassis" (Power (.str "Chassis") power.PowerConsumedWatts)) []
      = [("Chassis", Power (.str "Chassis") e.PowerConsumedWatts)] := by
  cases L with
  | nil => rfl
  | cons x rest =>
    rw [List.cons_append, List.foldl_cons]
    rw [show dictInsert ([] : Dict MonitorMetric) "Chassis"
          (Power (.str "Chassis") x.PowerConsumedWatts)
        = [("Chassis", Power (.str "Chassis") x.PowerConsumedWatts)] from rfl]
    rw [foldIns_const_key (fun power => Power (.str "Chassis") power.PowerConsumedWatts)
      "Chassis" (rest ++ [e]), List.foldl_append]
    rfl

/-! ## The `parse_cmd` invariant -/

/-- The invariant C10 states for `self.bmc`: every key is a non-empty
trimmed string and every value is trimmed. -/
def goodDict (d : Dict (List Char)) : Prop :=
  ∀ kv ∈ d, kv.1 ≠ "" ∧ pyStrip kv.1.data = kv.1.data ∧ pyStrip kv.2 = kv.2

theorem goodDict_insert (d : Dict (List Char)) (k : String) (v : List Char)
    (hd : goodDict d) (h1 : k ≠ "") (h2 : pyStrip k.data = k.data)
    (h3 : pyStrip v = v) : goodDict (dictInsert d k v) := by
  intro kv hkv
  rcases mem_dictInsert d k v kv hkv with h | h
  · exact hd kv h
  · rw [h]
    exact ⟨h1, h2, h3⟩

theorem goodDict_processRow (d : Dict (List Char)) (row : List Char)
    (hd : goodDict d) : goodDict (processRow d row) := by
  unfold processRow
  cases hs : splitSep row with
  | none => exact hd
  | some kv =>
    obtain ⟨key, value⟩ := kv
    by_cases hk : pyStrip key = []
    · simp only [hk, ne_eq, not_true_eq_false, if_false]
      exact hd
    · simp only [ne_eq, hk, not_false_eq_true, if_true]
      refine goodDict_insert d _ _ hd ?_ ?_ (pyStrip_idem value)
      · intro hc
        exact hk (congrArg String.data hc)
      · exact pyStrip_idem key

/-! ## Claims -/

/-- Claim C1, counterexample: on the thermal document `{}` (no `"Fans"`
key — exactly what the generic `get_thermal()` returns), `read_fans()`
does not return `{Fan: {}}`: iterating `doc.get("Fans") = None` raises
`TypeError`, modelled as `none`. -/
theorem claim_C1_counterexample :
    read_fans get_thermal = none
  ∧ read_fans get_thermal ≠ some [(FanContext.FAN.toStr, [])] := by
  decide

/-- Claim C1 (amended): when the `"Fans"` key is present but its list is
empty, `read_fans()` returns `{Fan: {}}` and raises no exception; when
the `"Fans"` key is absent, the iteration over `None` raises `TypeError`
instead of producing a result. -/
theorem claim_C1 :
    (∀ doc : ThermalDoc, doc.fans = some [] →
        read_fans doc = some [(FanContext.FAN.toStr, [])])
  ∧ (∀ doc : ThermalDoc, doc.fans = none → read_fans doc = none) := by
  constructor
  · intro doc h
    obtain ⟨fans⟩ := doc
    change fans = some [] at h
    subst h
    rfl
  · intro doc h
    obtain ⟨fans⟩ := doc
    change fans = none at h
    subst h
    rfl

/-- Claim C1, witness for the amended theorem at concrete documents. -/
theorem claim_C1_witness :
    read_fans ⟨some []⟩ = some [(FanContext.FAN.toStr, [])]
  ∧ read_fans ⟨none⟩ = none :=
  ⟨claim_C1.1 ⟨some []⟩ rfl, claim_C1.2 ⟨none⟩ rfl⟩

/-- Claim C2: every power-supply entry (with a tokenizable name, names
pairwise distinct) is keyed in the `"Power"` group by its full `"Name"`
string, while the stored metric's own name is the first
whitespace-delimited token of that string, its value is
`PowerInputWatts` and its unit `"Watts"`; in particular an entry named
`"PSU 1"` with `PowerInputWatts = 42` yields key `"PSU 1"` bound to
`Power("PSU", 42)`. -/
theorem claim_C2 :
    (∀ (pc : Option (List PowerControlEntry)) (l : List PowerSupplyEntry),
        (∀ e ∈ l, (firstToken e.Name).isSome) →
        (l.map PowerSupplyEntry.Name).Nodup →
        ∃ inner, read_power_supplies ⟨pc, some l⟩
            = some [(PowerContext.POWER.toStr, inner)]
          ∧ ∀ e ∈ l, ∀ t, firstToken e.Name = some t →
              dictLookup inner e.Name = some (Power (.str t) e.PowerInputWatts))
  ∧ read_power_supplies ⟨none, some [⟨"PSU 1", 42⟩]⟩
      = some [(PowerContext.POWER.toStr, [("PSU 1", Power (.str "PSU") 42)])] := by
  constructor
  · intro pc l htok hnd
    refine ⟨foldIns PowerSupplyEntry.Name psuVal l [],
      read_power_supplies_some pc l htok, ?_⟩
    intro e he t ht
    rw [dictLookup_foldIns_mem PowerSupplyEntry.Name psuVal l hnd e he []]
    rw [show psuVal e = Power (.str t) e.PowerInputWatts from by simp [psuVal, ht]]
  · decide

/-- Claim C2, witness: the theorem instantiated at the single-entry
document with name `"PSU 1"` and `PowerInputWatts = 42`. -/
theorem claim_C2_witness :
    ∃ inner, read_power_supplies ⟨none, some [⟨"PSU 1", 42⟩]⟩
        = some [(PowerContext.POWER.toStr, inner)]
      ∧ ∀ e ∈ [(⟨"PSU 1", 42⟩ : PowerSupplyEntry)], ∀ t, firstToken e.Name = some t →
          dictLookup inner e.Name = some (Power (.str t) e.PowerInputWatts) :=
  claim_C2.1 none [⟨"PSU 1", 42⟩] (by decide) (by decide)

/-- Claim C3, counterexample: with a controller constructed and a
session already established (state `⟨some ⟨1, 1⟩⟩`), another `prepare()`
does not leave the state unchanged — `connect_redfish` is called
unconditionally and builds a fresh session (session counter 2). -/
theorem claim_C3_counterexample :
    prepare ⟨some ⟨1, 1⟩⟩ = ⟨some ⟨1, 2⟩⟩
  ∧ prepare ⟨some ⟨1, 1⟩⟩ ≠ ⟨some ⟨1, 1⟩⟩ := by
  decide

/-- Claim C3 (amended): once a controller exists, a repeated
`Vendor.prepare()` does not construct a new controller and does not
rerun local discovery (`discoveryRuns` is unchanged), but it does call
`connect_redfish` again, establishing a fresh remote session rather
than reusing the existing one. -/
theorem claim_C3 (s : VendorState) (b : BMCState) (h : s.bmc = some b) :
    prepare s = ⟨some ⟨b.discoveryRuns, b.sessions + 1⟩⟩ := by
  obtain ⟨x⟩ := s
  change x = some b at h
  subst h
  rfl

/-- Claim C3, witness for the amended theorem at a concrete state. -/
theorem claim_C3_witness : prepare ⟨some ⟨3, 5⟩⟩ = ⟨some ⟨3, 6⟩⟩ :=
  claim_C3 ⟨some ⟨3, 5⟩⟩ ⟨3, 5⟩ rfl

/-- Claim C4: `read_power_consumption()` builds `{Power: {}}`; with an
empty (but present) `"PowerControl"` list the result stays
`{Power: {}}`; otherwise each control entry sets the single key
`"Chassis"` to `Power("Chassis", entry["PowerConsumedWatts"])`, so with
several control entries the last one wins. -/
theorem claim_C4 :
    (∀ doc : PowerDoc, doc.powerControl = some [] →
        read_power_consumption doc = some [(PowerContext.POWER.toStr, [])])
  ∧ (∀ (doc : PowerDoc) (L : List PowerControlEntry) (e : PowerControlEntry),
        doc.powerControl = some (L ++ [e]) →
        read_power_consumption doc = some [(PowerContext.POWER.toStr,
          [("Chassis", Power (.str "Chassis") e.PowerConsumedWatts)])]) := by
  constructor
  · intro doc h
    obtain ⟨pcl, psl⟩ := doc
    change pcl = some [] at h
    subst h
    rfl
  · intro doc L e h
    obtain ⟨pcl, psl⟩ := doc
    change pcl = some (L ++ [e]) at h
    subst h
    show some [(PowerContext.POWER.toStr, _)] = _
    rw [chassisFold_append L e]

/-- Claim C4, witness: an empty control list keeps `{Power: {}}`, and
with two control entries (30 W then 45 W) the `"Chassis"` metric holds
the last entry's 45 W. -/
theorem claim_C4_witness :
    read_power_consumption ⟨some [], none⟩ = some [(PowerContext.POWER.toStr, [])]
  ∧ read_power_consumption ⟨some [⟨30⟩, ⟨45⟩], none⟩
      = some [(PowerContext.POWER.toStr, [("Chassis", Power (.str "Chassis") 45)])] :=
  ⟨claim_C4.1 ⟨some [], none⟩ rfl, claim_C4.2 ⟨some [⟨30⟩, ⟨45⟩], none⟩ [⟨30⟩] ⟨45⟩ rfl⟩

/-- Claim C5, counterexample: with two fan entries sharing the label
`"Fan 1"`, the inner mapping has a single key, so its key list is not
"exactly the order the entries appear" (two entries, one key): the
second insert overwrites the first in place. -/
theorem claim_C5_counterexample :
    read_fans ⟨some [⟨"Fan 1", 10, "Percent"⟩, ⟨"Fan 1", 20, "Percent"⟩]⟩
      = some [(FanContext.FAN.toStr, [("Fan 1", ⟨.str "Fan 1", 20, "Percent"⟩)])]
  ∧ dictKeys [("Fan 1", (⟨.str "Fan 1", 20, "Percent"⟩ : MonitorMetric))]
      ≠ ([(⟨"Fan 1", 10, "Percent"⟩ : FanEntry), ⟨"Fan 1", 20, "Percent"⟩].map
          FanEntry.Name) := by
  decide

/-- Claim C5 (amended): for source documents whose sensor labels are
pairwise distinct, the inner mapping of `read_fans` / 
`read_power_supplies` lists the labels in exactly the order the entries
appear in the raw document, and permuting the input entries permutes
the output keys identically; with duplicate labels the later entry
overwrites the earlier one in place, so the key list is the
first-occurrence subsequence instead. -/
theorem claim_C5 :
    (∀ (l : List FanEntry) (inner : Dict MonitorMetric),
        (l.map FanEntry.Name).Nodup →
        read_fans ⟨some l⟩ = some [(FanContext.FAN.toStr, inner)] →
        dictKeys inner = l.map FanEntry.Name)
  ∧ (∀ (pc : Option (List PowerControlEntry)) (l : List PowerSupplyEntry)
        (inner : Dict MonitorMetric),
        (l.map PowerSupplyEntry.Name).Nodup →
        (∀ e ∈ l, (firstToken e.Name).isSome) →
        read_power_supplies ⟨pc, some l⟩ = some [(PowerContext.POWER.toStr, inner)] →
        dictKeys inner = l.map PowerSupplyEntry.Name)
  ∧ (∀ (l₁ l₂ : List FanEntry) (inner₁ inner₂ : Dict MonitorMetric),
        l₁.Perm l₂ → (l₂.map FanEntry.Name).Nodup →
        read_fans ⟨some l₁⟩ = some [(FanContext.FAN.toStr, inner₁)] →
        read_fans ⟨some l₂⟩ = some [(FanContext.FAN.toStr, inner₂)] →
        dictKeys inner₂ = l₂.map FanEntry.Name
          ∧ (dictKeys inner₁).Perm (dictKeys inner₂)) := by
  have hfan : ∀ (l : List FanEntry) (inner : Dict MonitorMetric),
      (l.map FanEntry.Name).Nodup →
      read_fans ⟨some l⟩ = some [(FanContext.FAN.toStr, inner)] →
      dictKeys inner = l.map FanEntry.Name := by
    intro l inner hnd hread
    rw [read_fans_some l] at hread
    simp only [Option.some.injEq, List.cons.injEq, Prod.mk.injEq, true_and,
      and_true] at hread
    rw [← hread]
    exact read_fans_keys l hnd
  refine ⟨hfan, ?_, ?_⟩
  · intro pc l inner hnd htok hread
    rw [read_power_supplies_some pc l htok] at hread
    simp only [Option.some.injEq, List.cons.injEq, Prod.mk.injEq, true_and,
      and_true] at hread
    rw [← hread]
    exact read_power_supplies_keys l hnd
  · intro l₁ l₂ inner₁ inner₂ hperm hnd₂ h₁ h₂
    have hnd₁ : (l₁.map FanEntry.Name).Nodup :=
      ((hperm.map FanEntry.Name).nodup_iff).mpr hnd₂
    have k₁ := hfan l₁ inner₁ hnd₁ h₁
    have k₂ := hfan l₂ inner₂ hnd₂ h₂
    refine ⟨k₂, ?_⟩
    rw [k₁, k₂]
    exact hperm.map FanEntry.Name

/-- Claim C5, witness: on a two-fan document with distinct labels the
inner key list equals the document's label list in order. -/
theorem claim_C5_witness :
    dictKeys [("Fan 1", (⟨.str "Fan 1", 47, "Percent"⟩ : MonitorMetric)),
        ("Fan 2", ⟨.str "Fan 2", 48, "Percent"⟩)]
      = ([(⟨"Fan 1", 47, "Percent"⟩ : FanEntry), ⟨"Fan 2", 48, "Percent"⟩].map
          FanEntry.Name) :=
  claim_C5.1 [⟨"Fan 1", 47, "Percent"⟩, ⟨"Fan 2", 48, "Percent"⟩] _
    (by decide) (by decide)

/-- Claim C6: `m1 == m2` holds iff `str(m1.name) == str(m2.name)`,
`m1.value == m2.value` and `m1.unit == m2.unit`; every `Temperature`
has unit `"Celsius"` and every `Power` unit `"Watts"`; and the name is
genuinely compared as a string — an enum-like name equals its display
string even though the two name objects differ. -/
theorem claim_C6 :
    (∀ m1 m2 : MonitorMetric, m1.eq m2 = true ↔
        (m1.name.toStr = m2.name.toStr ∧ m1.value = m2.value ∧ m1.unit = m2.unit))
  ∧ (∀ (n : PyStrLike) (v : ℚ), (Temperature n v).unit = "Celsius")
  ∧ (∀ (n : PyStrLike) (v : ℚ), (Power n v).unit = "Watts")
  ∧ (MonitorMetric.mk (.fan .FAN) 5 "RPM").eq ⟨.str "Fan", 5, "RPM"⟩ = true
  ∧ (PyStrLike.fan .FAN) ≠ .str "Fan" := by
  refine ⟨?_, fun n v => rfl, fun n v => rfl, by decide, by decide⟩
  intro m1 m2
  simp [MonitorMetric.eq, Bool.and_eq_true, and_assoc]

/-- Claim C7 (code evaluated at the failing inputs): a response document
carrying an `"error"` key is converted to `{}` with no exception, but a
transport or parse exception is NOT converted to `None`: because the
local variable `redfish` shadows the `redfish` module, evaluating the
`except redfish.rest.v1...` clause while the local is unbound raises
`UnboundLocalError`, which propagates out of `get_redfish_url`. -/
theorem claim_C7 :
    get_redfish_url (.ok [("error", "Base.1.4.ResourceMissingAtURI")]) = .doc []
  ∧ get_redfish_url .retriesExhausted = .raises "UnboundLocalError"
  ∧ get_redfish_url .jsonDecodeError = .raises "UnboundLocalError"
  ∧ get_redfish_url .retriesExhausted ≠ .retNone := by
  decide

/-- Claim C8: `get_ip()` returns the value under the `"IP Address"` key
of the discovery mapping when present, and calls
`h.fatal("Cannot detect BMC ip")` (terminating the run) exactly when the
key is absent. -/
theorem claim_C8 (bmc : Dict (List Char)) :
    (∀ ip, dictLookup bmc "IP Address" = some ip → get_ip bmc = .ok ip)
  ∧ (dictLookup bmc "IP Address" = none →
      get_ip bmc = .fatal "Cannot detect BMC ip") := by
  constructor
  · intro ip h
    simp [get_ip, h]
  · intro h
    simp [get_ip, h]

/-- Claim C8, witness at a populated and an empty discovery mapping. -/
theorem claim_C8_witness :
    get_ip [("IP Address", "10.0.0.1".data)] = .ok "10.0.0.1".data
  ∧ get_ip [] = .fatal "Cannot detect BMC ip" :=
  ⟨(claim_C8 [("IP Address", "10.0.0.1".data)]).1 _ (by decide),
   (claim_C8 []).2 (by decide)⟩

/-- Claim C9: `read_power_supplies()` raises (`IndexError` from
`Name.split()[0]`) on an entry whose `"Name"` is empty or whitespace
only, and is total under the precondition that every entry's name
contains at least one non-whitespace character. -/
theorem claim_C9 :
    read_power_supplies ⟨none, some [⟨"", 5⟩]⟩ = none
  ∧ (∀ (pc : Option (List PowerControlEntry)) (l : List PowerSupplyEntry),
      (∀ e ∈ l, ∃ c ∈ e.Name.data, pyWS c = false) →
      (read_power_supplies ⟨pc, some l⟩).isSome = true) := by
  constructor
  · decide
  · intro pc l h
    have htok : ∀ e ∈ l, (firstToken e.Name).isSome :=
      fun e he => firstToken_isSome _ (h e he)
    rw [read_power_supplies_some pc l htok]
    rfl

/-- Claim C9, witness: the precondition holds on an entry named
`"PSU 1"`, and there the call returns a result. -/
theorem claim_C9_witness :
    (read_power_supplies ⟨none, some [⟨"PSU 1", 42⟩]⟩).isSome = true :=
  claim_C9.2 none [⟨"PSU 1", 42⟩] (by decide)

/-- Claim C10: after `parse_cmd`, the discovery mapping holds only
entries with a non-empty trimmed key and a trimmed value: rows without
the `": "` separator contribute nothing, rows whose key strips to empty
are skipped, a repeated key overwrites the earlier entry, and the
invariant is preserved across repeated calls from any invariant-
satisfying state. -/
theorem claim_C10 :
    (∀ (bmc : Dict (List Char)) (row : List Char),
        splitSep row = none → processRow bmc row = bmc)
  ∧ (∀ (bmc : Dict (List Char)) (row key value : List Char),
        splitSep row = some (key, value) → pyStrip key = [] →
        processRow bmc row = bmc)
  ∧ (∀ (bmc : Dict (List Char)) (k : String) (v : List Char),
        dictLookup (dictInsert bmc k v) k = some v)
  ∧ (∀ (stdout : List Char) (bmc : Dict (List Char)),
        goodDict bmc → goodDict (parse_cmd stdout bmc)) := by
  refine ⟨?_, ?_, fun bmc k v => dictLookup_insert_self bmc k v, ?_⟩
  · intro bmc row h
    simp [processRow, h]
  · intro bmc row key value h1 h2
    simp [processRow, h1, h2]
  · intro stdout bmc hd
    unfold parse_cmd
    generalize splitLines stdout = rows
    induction rows generalizing bmc with
    | nil => exact hd
    | cons r rs ih => exact ih _ (goodDict_processRow bmc r hd)

/-- Claim C10, witness at concrete rows and a concrete two-line
stdout. -/
theorem claim_C10_witness :
    processRow [] "Set in Progress".data = []
  ∧ processRow [("A", "x".data)] "   : value".data = [("A", "x".data)]
  ∧ dictLookup (dictInsert [("IP Address", "10.0.0.1".data)]
      "IP Address" "10.0.0.2".data) "IP Address" = some "10.0.0.2".data
  ∧ goodDict (parse_cmd "IP Address  : 10.0.0.1\nGarbage line".data []) :=
  ⟨claim_C10.1 [] _ (by decide),
   claim_C10.2.1 [("A", "x".data)] _ "   ".data "value".data (by decide) (by decide),
   claim_C10.2.2.1 _ "IP Address" _,
   claim_C10.2.2.2 _ [] (by intro kv h; cases h)⟩
